import Mathlib

/-!
Shallow embedding of the DOCX internal-style extraction core
(`parseDocxStyles` in the style-parser module): opening a ZIP package,
reading the text of the `word/styles.xml` part, parsing it as XML and
producing a condensed text report of the styles relevant to formatting
compliance, falling back to one of two fixed messages on failure.
-/

/-- An XML element node: a tag name, an ordered attribute list and an
ordered list of child elements.  Text nodes carry no information the
extractor reads, so only elements are modelled. -/
inductive XmlNode where
  | elem (tag : String) (attrs : List (String × String)) (children : List XmlNode)

def XmlNode.tag : XmlNode → String
  | .elem t _ _ => t

def XmlNode.attrs : XmlNode → List (String × String)
  | .elem _ a _ => a

def XmlNode.children : XmlNode → List XmlNode
  | .elem _ _ c => c

/-- DOM `Element.getAttribute`: the value of the first attribute with the
given qualified name, or null (`none`) when absent. -/
def XmlNode.getAttribute (n : XmlNode) (name : String) : Option String :=
  (n.attrs.find? (fun p => p.fst == name)).map Prod.snd

mutual

/-- A node followed by all of its descendant elements in document
(pre-)order, as DOM tree traversal enumerates them. -/
def XmlNode.selfAndDescendants : XmlNode → List XmlNode
  | .elem t a cs => .elem t a cs :: XmlNode.descList cs

/-- All elements of a forest in document (pre-)order. -/
def XmlNode.descList : List XmlNode → List XmlNode
  | [] => []
  | c :: cs => c.selfAndDescendants ++ XmlNode.descList cs

end

/-- DOM `Element.getElementsByTagName`: every descendant element (self
excluded) with the given tag, in document order. -/
def descElems (n : XmlNode) (tag : String) : List XmlNode :=
  (XmlNode.descList n.children).filter (fun e => e.tag == tag)

/-- DOM `Document.getElementsByTagName` on a document whose root element is
`doc`: every element of the tree (root included) with the given tag, in
document order. -/
def docElems (doc : XmlNode) (tag : String) : List XmlNode :=
  doc.selfAndDescendants.filter (fun e => e.tag == tag)

/-- `startsWithL pat s`: the char list `s` starts with `pat`. -/
def startsWithL : List Char → List Char → Bool
  | [], _ => true
  | _ :: _, [] => false
  | a :: as, b :: bs => a == b && startsWithL as bs

/-- `hasSub pat s`: `pat` occurs as a contiguous run inside `s`. -/
def hasSub (pat : List Char) : List Char → Bool
  | [] => pat.isEmpty
  | c :: rest => startsWithL pat (c :: rest) || hasSub pat rest

/-- JS `String.prototype.includes`. -/
def strHas (s pat : String) : Bool := hasSub pat.data s.data

/-- JS `String.prototype.toLowerCase`, character by character
(`Char.toLower` agrees with it on the ASCII identifiers the filter
inspects). -/
def lowerStr (s : String) : String := ⟨s.data.map Char.toLower⟩

/-- JS template interpolation of a nullable string: `null` prints as the
four characters `null`. -/
def jsShow : Option String → String
  | some s => s
  | none => "null"

/-- JS `x || d` for a nullable string `x`: both `null` and the empty
string are falsy, so either yields the default. -/
def jsOr (x : Option String) (d : String) : String :=
  match x with
  | some s => if s == "" then d else s
  | none => d

def digitsToNat : List Char → Nat → Nat
  | [], acc => acc
  | c :: cs, acc => digitsToNat cs (acc * 10 + (c.toNat - 48))

/-- JS `parseInt` restricted to the forms the source exercises: the
leading run of decimal digits is parsed, and a string that does not start
with a digit gives NaN (`none`).  Signs, whitespace skipping and hex
prefixes never occur in OOXML attribute values and are not modelled. -/
def jsParseInt (s : String) : Option Nat :=
  let ds := s.data.takeWhile Char.isDigit
  if ds.isEmpty then none else some (digitsToNat ds 0)

/-- The decimal rendering JS gives to the number `n / 2` for a natural
`n`: exact, with a trailing `.5` exactly when `n` is odd. -/
def jsHalfString (n : Nat) : String :=
  if n % 2 == 0 then toString (n / 2) else toString (n / 2) ++ ".5"

/-- The fallback returned when the ZIP opens but `word/styles.xml` is
absent (or its text is falsy). -/
def partNotFoundMsg : String := "无法读取文档样式定义 (word/styles.xml 不存在)"

/-- The fallback returned from the catch-all handler (invalid ZIP or XML
parse failure). -/
def parseFailureMsg : String := "无法解析 .docx 内部 XML 结构，仅基于文本内容分析。"

/-- The fixed first line of every successfully built report. -/
def reportHeader : String := "【文档内部样式定义分析 (基于 word/styles.xml)】:\n"

/-- Declared in the source (`importantStyles`) but never read afterwards;
kept for fidelity. -/
def importantStyles : List String :=
  ["Normal", "1", "2", "3", "Title", "Subtitle", "Default Paragraph Font"]

/-- `const name = nameNode ? nameNode.getAttribute("w:val") : styleId`:
the display name is the `w:val` of the first `w:name` descendant when that
element exists (null when the attribute is absent), else the style id. -/
def styleName (style : XmlNode) : Option String :=
  match (descElems style "w:name").head? with
  | some nameNode => nameNode.getAttribute "w:val"
  | none => style.getAttribute "w:styleId"

/-- `styleId?.toLowerCase().includes("heading")` (optional chaining: a
null id is not a heading). -/
def isHeadingStyle (style : XmlNode) : Bool :=
  match style.getAttribute "w:styleId" with
  | some id => strHas (lowerStr id) "heading"
  | none => false

/-- `styleId?.toLowerCase().includes("normal") || name === "Normal"`. -/
def isNormalStyle (style : XmlNode) : Bool :=
  (match style.getAttribute "w:styleId" with
   | some id => strHas (lowerStr id) "normal"
   | none => false) || styleName style == some "Normal"

/-- The block header `\n[样式名称: ${name} (ID: ${styleId})]`. -/
def headerLine (style : XmlNode) : String :=
  "\n[样式名称: " ++ jsShow (styleName style) ++ " (ID: "
    ++ jsShow (style.getAttribute "w:styleId") ++ ")]"

/-- The font line appended when the first `w:rFonts` descendant of the run
properties exists; absent or empty font attributes print the default
label. -/
def fontPart (rPr : XmlNode) : String :=
  match (descElems rPr "w:rFonts").head? with
  | none => ""
  | some rFonts =>
      "\n  - 字体: 西文=\"" ++ jsOr (rFonts.getAttribute "w:ascii") "默认"
        ++ "\", 中文=\"" ++ jsOr (rFonts.getAttribute "w:eastAsia") "默认" ++ "\""

/-- The size line appended when the first `w:sz` descendant exists:
`parseInt(sz.getAttribute("w:val") || "0")` printed raw and halved. -/
def sizePart (rPr : XmlNode) : String :=
  match (descElems rPr "w:sz").head? with
  | none => ""
  | some sz =>
      match jsParseInt (jsOr (sz.getAttribute "w:val") "0") with
      | some n => "\n  - 字号: " ++ toString n ++ " (即 " ++ jsHalfString n ++ "pt)"
      | none => "\n  - 字号: NaN (即 NaNpt)"

/-- The bold indicator line. -/
def boldLine : String := "\n  - 加粗: 是"

/-- `if (b && b.getAttribute("w:val") !== "0") report += boldLine`:
appended when the first `w:b` descendant exists and its `w:val` is not the
literal string `"0"` (a missing attribute, being null, also passes). -/
def boldPart (rPr : XmlNode) : String :=
  match (descElems rPr "w:b").head? with
  | none => ""
  | some b => if b.getAttribute "w:val" == some "0" then "" else boldLine

/-- The line-spacing line appended when the first `w:spacing` descendant
of the paragraph properties exists; null attributes print as `null`. -/
def spacingPart (pPr : XmlNode) : String :=
  match (descElems pPr "w:spacing").head? with
  | none => ""
  | some spacing =>
      "\n  - 行距: " ++ jsShow (spacing.getAttribute "w:line")
        ++ " (规则: " ++ jsShow (spacing.getAttribute "w:lineRule") ++ ")"

/-- The justification line appended when the first `w:jc` descendant
exists. -/
def jcPart (pPr : XmlNode) : String :=
  match (descElems pPr "w:jc").head? with
  | none => ""
  | some jc => "\n  - 对齐: " ++ jsShow (jc.getAttribute "w:val")

/-- Everything appended for one style that passed the relevance filter:
block header, then the run-property lines (first `w:rPr` descendant, when
present), then the paragraph-property lines (first `w:pPr` descendant,
when present), in source order. -/
def styleBlock (style : XmlNode) : String :=
  headerLine style
    ++ (match (descElems style "w:rPr").head? with
        | some rPr => fontPart rPr ++ sizePart rPr ++ boldPart rPr
        | none => "")
    ++ (match (descElems style "w:pPr").head? with
        | some pPr => spacingPart pPr ++ jcPart pPr
        | none => "")

/-- One loop iteration's contribution to the report: the style's block
when `isHeading || isNormal`, nothing otherwise. -/
def styleEntry (style : XmlNode) : String :=
  if isHeadingStyle style || isNormalStyle style then styleBlock style else ""

/-- The `for` loop over `xmlDoc.getElementsByTagName("w:style")`,
accumulating into `report`. -/
def reportLoop : List XmlNode → String → String
  | [], report => report
  | s :: rest, report => reportLoop rest (report ++ styleEntry s)

/-- The report built from a parsed styles document. -/
def buildReport (doc : XmlNode) : String :=
  reportLoop (docElems doc "w:style") reportHeader

/-- In-order concatenation of the per-style contributions. -/
def concatEntries : List XmlNode → String
  | [] => ""
  | s :: rest => styleEntry s ++ concatEntries rest

/-- Failure of `JSZip.loadAsync`: the buffer is not a valid ZIP. -/
inductive ArchiveError where
  | archiveError

/-- Failure of the XML-parse step on the part's text. -/
inductive MalformedXmlError where
  | malformedXml

/-- `zip.file(path)` on the opened package, modelled as exact-path lookup
in the entry list, followed by `.async("text")`. -/
def zipFile (entries : List (String × String)) (path : String) : Option String :=
  (entries.find? (fun e => e.fst == path)).map Prod.snd

/-- `parseDocxStyles`, parametrised over the outcomes of its two external
collaborators: `zipResult` is what `JSZip.loadAsync` produced from the
input bytes (an error for an invalid container, else the package's
entries), and `parseXml` is the XML-parse step on the part's text (per the
spec it fails on text that is not well-formed XML).  A thrown error from
either collaborator lands in the single catch-all, which returns
`parseFailureMsg`; `if (!stylesXml)` makes both a missing entry and an
entry with empty text return `partNotFoundMsg`. -/
def parseDocxStyles (zipResult : Except ArchiveError (List (String × String)))
    (parseXml : String → Except MalformedXmlError XmlNode) : String :=
  match zipResult with
  | .error _ => parseFailureMsg
  | .ok entries =>
      match zipFile entries "word/styles.xml" with
      | none => partNotFoundMsg
      | some stylesXml =>
          if stylesXml == "" then partNotFoundMsg
          else
            match parseXml stylesXml with
            | .error _ => parseFailureMsg
            | .ok xmlDoc => buildReport xmlDoc

/-- `strStarts s pre`: the string `s` begins with `pre`. -/
def strStarts (s pre : String) : Bool := startsWithL pre.data s.data

/-- The display name as the specification's data model defines it: the
value carried by the name element, falling back to the style identifier
when the document carries no display-name value. -/
def specDisplayName (style : XmlNode) : Option String :=
  match (descElems style "w:name").head? with
  | some nameNode =>
      match nameNode.getAttribute "w:val" with
      | some v => some v
      | none => style.getAttribute "w:styleId"
  | none => style.getAttribute "w:styleId"

/-- The relevance filter exactly as the specification sentence states it:
a style is included iff its identifier case-insensitively contains
"heading", or its identifier case-insensitively contains "normal", or its
display name equals exactly "Normal". -/
def specRelevant (style : XmlNode) : Prop :=
  (∃ id, style.getAttribute "w:styleId" = some id ∧
      (strHas (lowerStr id) "heading" = true ∨ strHas (lowerStr id) "normal" = true))
    ∨ specDisplayName style = some "Normal"

/-- Concrete input for the C1 example: a "Caption" style whose display
name is not "Normal", carrying run properties. -/
def capStyle : XmlNode :=
  .elem "w:style" [("w:styleId", "Caption")]
    [.elem "w:name" [("w:val", "Caption")] [],
     .elem "w:rPr" [] [.elem "w:b" [] []]]

/-- Concrete bold element with no value attribute (C2). -/
def wBH1 : XmlNode := .elem "w:b" [] []

/-- Concrete run-properties container holding the bold element (C2). -/
def wRPrH1 : XmlNode := .elem "w:rPr" [] [wBH1]

/-- Concrete Heading1 style holding the run properties (C2). -/
def wStyleH1 : XmlNode := .elem "w:style" [("w:styleId", "Heading1")] [wRPrH1]

/-- Concrete size element with value "24" (C6). -/
def wSz24 : XmlNode := .elem "w:sz" [("w:val", "24")] []

/-- Concrete run-properties container holding the size element (C6). -/
def wRPrSz : XmlNode := .elem "w:rPr" [] [wSz24]

/-- Concrete Heading2 style holding the run properties (C6). -/
def wStyleSz : XmlNode := .elem "w:style" [("w:styleId", "Heading2")] [wRPrSz]

/-- Concrete spacing element with line "360" and rule "auto" (C7). -/
def wSpacing : XmlNode :=
  .elem "w:spacing" [("w:line", "360"), ("w:lineRule", "auto")] []

/-- Concrete justification element with value "center" (C7). -/
def wJc : XmlNode := .elem "w:jc" [("w:val", "center")] []

/-- Concrete paragraph-properties container (C7). -/
def wPPrSp : XmlNode := .elem "w:pPr" [] [wSpacing, wJc]

/-- Concrete Normal style holding the paragraph properties (C7). -/
def wStyleSp : XmlNode := .elem "w:style" [("w:styleId", "Normal")] [wPPrSp]

/-- Name element of the first C8 example style. -/
def c8Name1 : XmlNode := .elem "w:name" [("w:val", "Normal")] []

/-- First C8 example style, source order position one. -/
def c8Normal : XmlNode := .elem "w:style" [("w:styleId", "Normal")] [c8Name1]

/-- Name element of the second C8 example style. -/
def c8Name2 : XmlNode := .elem "w:name" [("w:val", "heading 1")] []

/-- Second C8 example style, source order position two. -/
def c8Heading : XmlNode := .elem "w:style" [("w:styleId", "Heading1")] [c8Name2]

/-- C8 example document: styles in source order ["Normal", "Heading1"]. -/
def c8Doc : XmlNode := .elem "w:styles" [] [c8Normal, c8Heading]

/-- C9 example style: an identifier but no name element. -/
def c9Style : XmlNode := .elem "w:style" [("w:styleId", "Body")] []

/-- C10 example parsed document: a styles root with no style elements. -/
def c10Doc : XmlNode := .elem "w:styles" [] []

/-- C10 example parse collaborator: parses everything to `c10Doc`. -/
def c10Oracle : String → Except MalformedXmlError XmlNode :=
  fun _ => Except.ok c10Doc

theorem str_eq_empty_of_data : ∀ (s : String), s.data = [] → s = ""
  | ⟨[]⟩, _ => rfl
  | ⟨_ :: _⟩, h => nomatch h

theorem append_ne_empty_left (s t : String) (h : s ≠ "") : s ++ t ≠ "" := by
  intro hc
  have hd : (s ++ t).data = [] := by rw [hc]
  rw [String.data_append] at hd
  exact h (str_eq_empty_of_data s (List.append_eq_nil.mp hd).1)

theorem headerLine_ne_empty (style : XmlNode) : headerLine style ≠ "" := by
  unfold headerLine
  apply append_ne_empty_left
  apply append_ne_empty_left
  apply append_ne_empty_left
  apply append_ne_empty_left
  decide

theorem styleBlock_ne_empty (style : XmlNode) : styleBlock style ≠ "" := by
  unfold styleBlock
  apply append_ne_empty_left
  apply append_ne_empty_left
  exact headerLine_ne_empty style

theorem normal_contains_normal : strHas (lowerStr "Normal") "normal" = true := by decide

theorem included_iff_specRelevant (style : XmlNode) :
    (isHeadingStyle style || isNormalStyle style) = true ↔ specRelevant style := by
  unfold isHeadingStyle isNormalStyle specRelevant specDisplayName styleName
  cases hid : style.getAttribute "w:styleId" with
  | none =>
      cases hn : (descElems style "w:name").head? with
      | none => simp
      | some nameNode =>
          cases hv : nameNode.getAttribute "w:val" with
          | none => simp [hid, hv]
          | some v => simp [hv]
  | some id =>
      cases hn : (descElems style "w:name").head? with
      | none =>
          simp
          exact or_assoc.symm
      | some nameNode =>
          cases hv : nameNode.getAttribute "w:val" with
          | none =>
              simp [hid, hv]
              intro h
              subst h
              exact Or.inr normal_contains_normal
          | some v =>
              simp [hv]
              exact or_assoc.symm

/-- C1: a per-style block appears in the report (the style's loop
contribution is nonempty) iff the style satisfies the specification's
relevance filter: identifier case-insensitively contains "heading", or
case-insensitively contains "normal", or the display name equals exactly
"Normal".  In particular a style with identifier "Caption" and a display
name other than "Normal" contributes nothing. -/
theorem c1_relevance_filter (style : XmlNode) :
    styleEntry style ≠ "" ↔ specRelevant style := by
  unfold styleEntry
  by_cases hc : (isHeadingStyle style || isNormalStyle style) = true
  · rw [if_pos hc]
    constructor
    · intro _; exact (included_iff_specRelevant style).mp hc
    · intro _; exact styleBlock_ne_empty style
  · rw [if_neg hc]
    constructor
    · intro h; exact absurd rfl h
    · intro hs; exact absurd ((included_iff_specRelevant style).mpr hs) hc

theorem startsWithL_append (p a b : List Char) (h : startsWithL p a = true) :
    startsWithL p (a ++ b) = true := by
  induction p generalizing a with
  | nil => rfl
  | cons c cs ih =>
      cases a with
      | nil => exact absurd h (by simp [startsWithL])
      | cons x xs =>
          simp only [List.cons_append, startsWithL, Bool.and_eq_true] at h ⊢
          exact ⟨h.1, ih xs h.2⟩

theorem startsWithL_self_append (p rest : List Char) :
    startsWithL p (p ++ rest) = true := by
  induction p with
  | nil => rfl
  | cons c cs ih => simp [startsWithL, ih]

theorem hasSub_nil_pat : ∀ (s : List Char), hasSub [] s = true
  | [] => rfl
  | _ :: rest => by simp [hasSub, startsWithL]

theorem hasSub_self (p : List Char) : hasSub p p = true := by
  cases p with
  | nil => rfl
  | cons c cs =>
      simp only [hasSub, Bool.or_eq_true]
      left
      have hs := startsWithL_self_append (c :: cs) []
      rwa [List.append_nil] at hs

theorem hasSub_append_right (p a b : List Char) (h : hasSub p b = true) :
    hasSub p (a ++ b) = true := by
  induction a with
  | nil => exact h
  | cons x xs ih =>
      simp only [List.cons_append, hasSub, Bool.or_eq_true]
      exact Or.inr ih

theorem hasSub_append_left (p a b : List Char) (h : hasSub p a = true) :
    hasSub p (a ++ b) = true := by
  induction a with
  | nil =>
      have hp : p = [] := by
        cases p with
        | nil => rfl
        | cons c cs => simp [hasSub] at h
      subst hp
      exact hasSub_nil_pat b
  | cons x xs ih =>
      simp only [List.cons_append, hasSub, Bool.or_eq_true] at h ⊢
      rcases h with h | h
      · exact Or.inl (startsWithL_append p (x :: xs) b h)
      · exact Or.inr (ih h)

theorem strHas_append_right (a b pat : String) (h : strHas b pat = true) :
    strHas (a ++ b) pat = true := by
  unfold strHas at h ⊢
  rw [String.data_append]
  exact hasSub_append_right pat.data a.data b.data h

theorem strHas_append_left (a b pat : String) (h : strHas a pat = true) :
    strHas (a ++ b) pat = true := by
  unfold strHas at h ⊢
  rw [String.data_append]
  exact hasSub_append_left pat.data a.data b.data h

theorem strHas_self (s : String) : strHas s s = true := hasSub_self s.data

theorem strStarts_append (pre t : String) : strStarts (pre ++ t) pre = true := by
  unfold strStarts
  rw [String.data_append]
  exact startsWithL_self_append pre.data t.data

theorem reportLoop_concat (styles : List XmlNode) (r : String) :
    reportLoop styles r = r ++ concatEntries styles := by
  induction styles generalizing r with
  | nil => rw [reportLoop, concatEntries, String.append_empty]
  | cons s rest ih =>
      rw [reportLoop, concatEntries, ih, String.append_assoc]

theorem concatEntries_all_empty (l : List XmlNode)
    (h : ∀ st ∈ l, styleEntry st = "") : concatEntries l = "" := by
  induction l with
  | nil => rfl
  | cons s rest ih =>
      rw [concatEntries, h s (by simp), ih (fun st hst => h st (by simp [hst]))]
      rfl

/-- C2: for an included style whose run-properties container holds a bold
element, the loop appends the bold indicator iff the bold element's
`w:val` is not the literal string "0"; a bold element with no value
attribute yields the indicator, a value of exactly "0" suppresses it, and
when the indicator is emitted it occurs inside the style's report
block. -/
theorem c2_bold_toggle (style rPr b : XmlNode)
    (hinc : styleEntry style ≠ "")
    (hrPr : (descElems style "w:rPr").head? = some rPr)
    (hb : (descElems rPr "w:b").head? = some b) :
    (boldPart rPr = boldLine ↔ b.getAttribute "w:val" ≠ some "0")
      ∧ (b.getAttribute "w:val" = some "0" → boldPart rPr = "")
      ∧ (b.getAttribute "w:val" = none → boldPart rPr = boldLine)
      ∧ (b.getAttribute "w:val" ≠ some "0" →
          strHas (styleBlock style) boldLine = true) := by
  have hbp : boldPart rPr
      = if b.getAttribute "w:val" == some "0" then "" else boldLine := by
    unfold boldPart
    rw [hb]
  by_cases hv : b.getAttribute "w:val" = some "0"
  · have hz : boldPart rPr = "" := by
      rw [hbp, if_pos (by simp [hv])]
    refine ⟨?_, fun _ => hz, ?_, ?_⟩
    · constructor
      · intro he; rw [hz] at he; exact absurd he.symm (by decide)
      · intro hn; exact absurd hv hn
    · intro hn; rw [hv] at hn; exact absurd hn (by simp)
    · intro hn; exact absurd hv hn
  · have hl : boldPart rPr = boldLine := by
      rw [hbp, if_neg (by simp [hv])]
    refine ⟨⟨fun _ => hv, fun _ => hl⟩, fun hc => absurd hc hv, fun _ => hl, ?_⟩
    intro _
    unfold styleBlock
    rw [hrPr]
    apply strHas_append_left
    apply strHas_append_right
    apply strHas_append_right
    rw [hl]
    exact strHas_self boldLine

/-- C2 witness: the concrete Heading1 style with a bold element carrying
no value attribute. -/
theorem c2_bold_toggle_witness :
    styleEntry wStyleH1 ≠ ""
      ∧ (descElems wStyleH1 "w:rPr").head? = some wRPrH1
      ∧ (descElems wRPrH1 "w:b").head? = some wBH1
      ∧ ((boldPart wRPrH1 = boldLine ↔ wBH1.getAttribute "w:val" ≠ some "0")
          ∧ (wBH1.getAttribute "w:val" = some "0" → boldPart wRPrH1 = "")
          ∧ (wBH1.getAttribute "w:val" = none → boldPart wRPrH1 = boldLine)
          ∧ (wBH1.getAttribute "w:val" ≠ some "0" →
              strHas (styleBlock wStyleH1) boldLine = true)) :=
  ⟨by decide, rfl, rfl, c2_bold_toggle wStyleH1 wRPrH1 wBH1 (by decide) rfl rfl⟩

/-- C3 counterexample: a package whose `word/styles.xml` part is present
but holds the empty string.  The empty text is not well-formed XML (the
parse collaborator rejects it), yet the code returns the part-not-found
fallback, not the parse-failure fallback, because `if (!stylesXml)`
treats a present-but-empty part like a missing one. -/
theorem c3_counterexample :
    zipFile [("word/styles.xml", "")] "word/styles.xml" = some ""
      ∧ parseDocxStyles (Except.ok [("word/styles.xml", "")])
          (fun _ => Except.error MalformedXmlError.malformedXml) = partNotFoundMsg
      ∧ partNotFoundMsg ≠ parseFailureMsg :=
  ⟨rfl, rfl, by decide⟩

/-- C3 (amended): when the styles part is present with NONEMPTY text that
does not parse as well-formed XML, the result is exactly the parse-failure
fallback string. -/
theorem c3_parse_failure (entries : List (String × String))
    (parseXml : String → Except MalformedXmlError XmlNode) (s : String)
    (hfind : zipFile entries "word/styles.xml" = some s)
    (hne : s ≠ "")
    (hparse : parseXml s = Except.error MalformedXmlError.malformedXml) :
    parseDocxStyles (Except.ok entries) parseXml = parseFailureMsg := by
  simp only [parseDocxStyles, hfind, hparse]
  rw [if_neg (by simp [hne])]

/-- C3 witness: a present, nonempty, non-XML part. -/
theorem c3_parse_failure_witness :
    zipFile [("word/styles.xml", "not xml at all")] "word/styles.xml"
        = some "not xml at all"
      ∧ "not xml at all" ≠ ""
      ∧ parseDocxStyles (Except.ok [("word/styles.xml", "not xml at all")])
          (fun _ => Except.error MalformedXmlError.malformedXml) = parseFailureMsg :=
  ⟨rfl, by decide,
    c3_parse_failure [("word/styles.xml", "not xml at all")]
      (fun _ => Except.error MalformedXmlError.malformedXml)
      "not xml at all" rfl (by decide) rfl⟩

/-- C4: a valid ZIP with no entry at the exact path `word/styles.xml`
yields exactly the part-not-found fallback string (the embedding is a
total function, so no error reaches the caller). -/
theorem c4_part_not_found (entries : List (String × String))
    (parseXml : String → Except MalformedXmlError XmlNode)
    (habs : zipFile entries "word/styles.xml" = none) :
    parseDocxStyles (Except.ok entries) parseXml = partNotFoundMsg := by
  simp only [parseDocxStyles, habs]

/-- C4 witness: a package holding only `word/document.xml` (note the
lookup is by exact path: a differently-cased `word/Styles.xml` also does
not match). -/
theorem c4_part_not_found_witness :
    zipFile [("word/document.xml", "d"), ("word/Styles.xml", "s")]
        "word/styles.xml" = none
      ∧ parseDocxStyles
          (Except.ok [("word/document.xml", "d"), ("word/Styles.xml", "s")])
          (fun _ => Except.error MalformedXmlError.malformedXml) = partNotFoundMsg :=
  ⟨rfl,
    c4_part_not_found [("word/document.xml", "d"), ("word/Styles.xml", "s")]
      (fun _ => Except.error MalformedXmlError.malformedXml) rfl⟩

/-- C5 counterexample: on a buffer that is not a valid ZIP container the
catch-all returns the parse-failure fallback, which is a different string
from the part-not-found fallback the claim names. -/
theorem c5_counterexample :
    parseDocxStyles (Except.error ArchiveError.archiveError)
        (fun _ => Except.error MalformedXmlError.malformedXml) = parseFailureMsg
      ∧ parseFailureMsg ≠ partNotFoundMsg :=
  ⟨rfl, by decide⟩

/-- C5 (amended): an invalid ZIP container is recovered locally — the
single catch-all handler returns the general parse-failure fallback
string (the embedding is total, so nothing propagates to the caller). -/
theorem c5_archive_error (parseXml : String → Except MalformedXmlError XmlNode) :
    parseDocxStyles (Except.error ArchiveError.archiveError) parseXml
      = parseFailureMsg := rfl

/-- C6: for an included style whose run properties carry a size element
with a nonempty digit-string value, the size line shows the parsed
half-point integer and the exact rendering of its half (`value / 2`,
trailing `.5` only for an odd value — the division inherits integer
semantics from the parsed value and performs no further rounding), and
both strings occur in the style's report block. -/
theorem c6_size_line (style rPr sz : XmlNode) (v : String) (n : Nat)
    (hinc : styleEntry style ≠ "")
    (hrPr : (descElems style "w:rPr").head? = some rPr)
    (hsz : (descElems rPr "w:sz").head? = some sz)
    (hval : sz.getAttribute "w:val" = some v)
    (hne : v ≠ "")
    (hn : jsParseInt v = some n) :
    sizePart rPr
        = "\n  - 字号: " ++ toString n ++ " (即 " ++ jsHalfString n ++ "pt)"
      ∧ strHas (sizePart rPr) (toString n) = true
      ∧ strHas (sizePart rPr) (jsHalfString n) = true
      ∧ strHas (styleBlock style) (toString n) = true
      ∧ strHas (styleBlock style) (jsHalfString n) = true := by
  have hjs : jsOr (sz.getAttribute "w:val") "0" = v := by
    simp only [jsOr, hval]
    rw [if_neg (by simp [hne])]
  have hline : sizePart rPr
      = "\n  - 字号: " ++ toString n ++ " (即 " ++ jsHalfString n ++ "pt)" := by
    simp only [sizePart, hsz, hjs, hn]
  have hraw : strHas (sizePart rPr) (toString n) = true := by
    rw [hline]
    apply strHas_append_left
    apply strHas_append_left
    apply strHas_append_left
    apply strHas_append_right
    exact strHas_self (toString n)
  have hhalf : strHas (sizePart rPr) (jsHalfString n) = true := by
    rw [hline]
    apply strHas_append_left
    apply strHas_append_right
    exact strHas_self (jsHalfString n)
  refine ⟨hline, hraw, hhalf, ?_, ?_⟩
  · unfold styleBlock
    rw [hrPr]
    apply strHas_append_left
    apply strHas_append_right
    apply strHas_append_left
    apply strHas_append_right
    exact hraw
  · unfold styleBlock
    rw [hrPr]
    apply strHas_append_left
    apply strHas_append_right
    apply strHas_append_left
    apply strHas_append_right
    exact hhalf

/-- C6 witness: size value "24" yields the strings "24" and "12" on the
size line, as the spec's example demands. -/
theorem c6_size_line_witness :
    styleEntry wStyleSz ≠ ""
      ∧ jsParseInt "24" = some 24
      ∧ sizePart wRPrSz
          = "\n  - 字号: " ++ toString 24 ++ " (即 " ++ jsHalfString 24 ++ "pt)"
      ∧ sizePart wRPrSz = "\n  - 字号: 24 (即 12pt)"
      ∧ strHas (styleBlock wStyleSz) (toString 24) = true
      ∧ strHas (styleBlock wStyleSz) (jsHalfString 24) = true := by
  have h := c6_size_line wStyleSz wRPrSz wSz24 "24" 24
    (by decide) rfl rfl rfl (by decide) (by decide)
  exact ⟨by decide, by decide, h.1, by decide, h.2.2.2.1, h.2.2.2.2⟩

/-- C7: an included style with a spacing element carrying line "360" and
line-rule "auto" and a justification element with value "center" yields
the raw strings "360", "auto" and "center" verbatim in its report block
(the spacing and justification lines pass the attribute values through
untranslated). -/
theorem c7_raw_strings (style pPr spacing jc : XmlNode)
    (hinc : styleEntry style ≠ "")
    (hpPr : (descElems style "w:pPr").head? = some pPr)
    (hsp : (descElems pPr "w:spacing").head? = some spacing)
    (hline : spacing.getAttribute "w:line" = some "360")
    (hrule : spacing.getAttribute "w:lineRule" = some "auto")
    (hjc : (descElems pPr "w:jc").head? = some jc)
    (hjv : jc.getAttribute "w:val" = some "center") :
    spacingPart pPr = "\n  - 行距: 360 (规则: auto)"
      ∧ jcPart pPr = "\n  - 对齐: center"
      ∧ strHas (styleBlock style) "360" = true
      ∧ strHas (styleBlock style) "auto" = true
      ∧ strHas (styleBlock style) "center" = true := by
  have h1 : spacingPart pPr = "\n  - 行距: 360 (规则: auto)" := by
    simp only [spacingPart, hsp, hline, hrule]
    rfl
  have h2 : jcPart pPr = "\n  - 对齐: center" := by
    simp only [jcPart, hjc, hjv]
    rfl
  refine ⟨h1, h2, ?_, ?_, ?_⟩
  · unfold styleBlock
    rw [hpPr]
    apply strHas_append_right
    apply strHas_append_left
    rw [h1]
    decide
  · unfold styleBlock
    rw [hpPr]
    apply strHas_append_right
    apply strHas_append_left
    rw [h1]
    decide
  · unfold styleBlock
    rw [hpPr]
    apply strHas_append_right
    apply strHas_append_right
    rw [h2]
    decide

/-- C7 witness: the concrete Normal style carrying exactly that spacing
and justification. -/
theorem c7_raw_strings_witness :
    styleEntry wStyleSp ≠ ""
      ∧ (spacingPart wPPrSp = "\n  - 行距: 360 (规则: auto)"
          ∧ jcPart wPPrSp = "\n  - 对齐: center"
          ∧ strHas (styleBlock wStyleSp) "360" = true
          ∧ strHas (styleBlock wStyleSp) "auto" = true
          ∧ strHas (styleBlock wStyleSp) "center" = true) :=
  ⟨by decide, c7_raw_strings wStyleSp wPPrSp wSpacing wJc
    (by decide) rfl rfl rfl rfl rfl rfl⟩

/-- C8: the report is the fixed header followed by the per-style
contributions concatenated in document order — the loop accumulator only
ever appends, so blocks appear in the order the style elements appear, not
sorted; instantiated on a document whose source order is
["Normal", "Heading1"], whose two (both included) blocks appear in that
same order. -/
theorem c8_document_order :
    (∀ (styles : List XmlNode) (r : String),
        reportLoop styles r = r ++ concatEntries styles)
      ∧ docElems c8Doc "w:style" = [c8Normal, c8Heading]
      ∧ buildReport c8Doc
          = reportHeader ++ (styleEntry c8Normal ++ styleEntry c8Heading)
      ∧ styleEntry c8Normal ≠ "" ∧ styleEntry c8Heading ≠ "" :=
  ⟨reportLoop_concat, rfl, by decide, by decide, by decide⟩

/-- C9: when a style definition has no name element, the display name
falls back to the style identifier: the header line shows the identifier
in both slots, and the filter's "display name equals exactly Normal" test
is applied to the identifier. -/
theorem c9_name_fallback (style : XmlNode)
    (habs : (descElems style "w:name").head? = none) :
    styleName style = style.getAttribute "w:styleId"
      ∧ headerLine style
          = "\n[样式名称: " ++ jsShow (style.getAttribute "w:styleId")
            ++ " (ID: " ++ jsShow (style.getAttribute "w:styleId") ++ ")]"
      ∧ (isNormalStyle style = true ↔
          ((∃ id, style.getAttribute "w:styleId" = some id
              ∧ strHas (lowerStr id) "normal" = true)
            ∨ style.getAttribute "w:styleId" = some "Normal")) := by
  have h1 : styleName style = style.getAttribute "w:styleId" := by
    unfold styleName
    rw [habs]
  refine ⟨h1, ?_, ?_⟩
  · unfold headerLine
    rw [h1]
  · unfold isNormalStyle
    rw [h1]
    cases hid : style.getAttribute "w:styleId" with
    | none => simp
    | some id => simp [hid]

/-- C9 witness: a style with identifier "Body" and no name element. -/
theorem c9_name_fallback_witness :
    (descElems c9Style "w:name").head? = none
      ∧ (styleName c9Style = c9Style.getAttribute "w:styleId"
          ∧ headerLine c9Style
              = "\n[样式名称: " ++ jsShow (c9Style.getAttribute "w:styleId")
                ++ " (ID: " ++ jsShow (c9Style.getAttribute "w:styleId") ++ ")]"
          ∧ (isNormalStyle c9Style = true ↔
              ((∃ id, c9Style.getAttribute "w:styleId" = some id
                  ∧ strHas (lowerStr id) "normal" = true)
                ∨ c9Style.getAttribute "w:styleId" = some "Normal"))) :=
  ⟨rfl, c9_name_fallback c9Style rfl⟩

/-- C10 counterexample: the ZIP opens and the `word/styles.xml` part is
present (with empty text); the result is the part-not-found fallback,
which does not begin with the report header line. -/
theorem c10_counterexample :
    zipFile [("word/styles.xml", "")] "word/styles.xml" = some ""
      ∧ parseDocxStyles (Except.ok [("word/styles.xml", "")])
          (fun _ => Except.ok (XmlNode.elem "w:styles" [] [])) = partNotFoundMsg
      ∧ strStarts partNotFoundMsg reportHeader = false :=
  ⟨rfl, rfl, by decide⟩

/-- C10 (amended): whenever the ZIP opens and the styles part is present
with nonempty text that parses, the result begins with the fixed report
header line; when zero styles pass the relevance filter the result is
exactly the header line, which differs from both fallback strings. -/
theorem c10_header_invariant (entries : List (String × String))
    (parseXml : String → Except MalformedXmlError XmlNode) (s : String) (doc : XmlNode)
    (hfind : zipFile entries "word/styles.xml" = some s)
    (hne : s ≠ "")
    (hparse : parseXml s = Except.ok doc) :
    strStarts (parseDocxStyles (Except.ok entries) parseXml) reportHeader = true
      ∧ ((∀ st ∈ docElems doc "w:style", styleEntry st = "") →
          parseDocxStyles (Except.ok entries) parseXml = reportHeader)
      ∧ reportHeader ≠ partNotFoundMsg
      ∧ reportHeader ≠ parseFailureMsg := by
  have hres : parseDocxStyles (Except.ok entries) parseXml = buildReport doc := by
    simp only [parseDocxStyles, hfind, hparse]
    rw [if_neg (by simp [hne])]
  have hb : buildReport doc
      = reportHeader ++ concatEntries (docElems doc "w:style") := by
    unfold buildReport
    exact reportLoop_concat _ _
  refine ⟨?_, ?_, by decide, by decide⟩
  · rw [hres, hb]
    exact strStarts_append _ _
  · intro hall
    rw [hres, hb, concatEntries_all_empty _ hall, String.append_empty]

/-- C10 witness: a package whose styles part parses to a document with no
style elements at all — the result is exactly the header line. -/
theorem c10_header_invariant_witness :
    zipFile [("word/styles.xml", "<w:styles/>")] "word/styles.xml"
        = some "<w:styles/>"
      ∧ "<w:styles/>" ≠ ""
      ∧ c10Oracle "<w:styles/>" = Except.ok c10Doc
      ∧ strStarts (parseDocxStyles (Except.ok [("word/styles.xml", "<w:styles/>")])
          c10Oracle) reportHeader = true
      ∧ parseDocxStyles (Except.ok [("word/styles.xml", "<w:styles/>")])
          c10Oracle = reportHeader := by
  have h := c10_header_invariant [("word/styles.xml", "<w:styles/>")]
    c10Oracle "<w:styles/>" c10Doc rfl (by decide) rfl
  exact ⟨rfl, by decide, rfl, h.1, h.2.1 (fun st hst => nomatch hst)⟩

/-- C1 witness: the filter equivalence at the concrete Caption style,
together with the concrete consequence that its contribution is empty. -/
theorem c1_relevance_filter_witness :
    (styleEntry capStyle ≠ "" ↔ specRelevant capStyle)
      ∧ styleEntry capStyle = "" ∧ styleEntry wStyleH1 ≠ "" :=
  ⟨c1_relevance_filter capStyle, by decide, by decide⟩

/-- C5 witness: the amended behaviour at a concrete parse collaborator. -/
theorem c5_archive_error_witness :
    parseDocxStyles (Except.error ArchiveError.archiveError)
      (fun _ => Except.error MalformedXmlError.malformedXml) = parseFailureMsg :=
  c5_archive_error (fun _ => Except.error MalformedXmlError.malformedXml)

/-- C8 witness: the loop equation instantiated at the two-style example
list and the fixed header accumulator. -/
theorem c8_document_order_witness :
    reportLoop [c8Normal, c8Heading] reportHeader
      = reportHeader ++ concatEntries [c8Normal, c8Heading] :=
  c8_document_order.1 [c8Normal, c8Heading] reportHeader
